import Mathlib
/-!
Shallow embedding of `src/ol/format/IGC.js` (the IGC flight-log text format
decoder).  Strings are modelled as `List Char`; JavaScript floating-point
numbers are modelled as `ℚ` (every quantity this decoder computes is an exact
rational: integer fields, `k/60000` coordinate sums, `ms/1000` timestamps);
`Date.UTC` is modelled by the ECMAScript MakeDay/MakeTime/MakeDate calendar
arithmetic on `ℤ` (the two-digit-year remapping of `Date.UTC` is irrelevant
here because every year the decoder produces is at least 1999).
-/

/-- Numeric value of a decimal digit character (`parseInt` on one digit). -/
def dval (c : Char) : Nat := c.toNat - 48

/-- The character class `\d` of the decoder's regular expressions. -/
def isDig (c : Char) : Prop := 48 ≤ c.toNat ∧ c.toNat ≤ 57

instance (c : Char) : Decidable (isDig c) := by
  unfold isDig; infer_instance

/-- `parseInt` of a two-digit capture group. -/
def d2 (a b : Char) : Nat := 10 * dval a + dval b

/-- `parseInt` of a three-digit capture group. -/
def d3 (a b c : Char) : Nat := 100 * dval a + 10 * dval b + dval c

/-- `parseInt` of a five-digit capture group. -/
def d5 (a b c d e : Char) : Nat :=
  10000 * dval a + 1000 * dval b + 100 * dval c + 10 * dval d + dval e

/-- The capture groups of one `B_RECORD_RE` match (the spec's FixRecord),
with the numeric groups already passed through `parseInt`. -/
structure FixRecord where
  hour : Nat
  minute : Nat
  second : Nat
  latDeg : Nat
  latMin : Nat
  ns : Char
  lonDeg : Nat
  lonMin : Nat
  ew : Char
  validity : Char
  gpsAlt : Nat
  presAlt : Nat
deriving DecidableEq

/-- `B_RECORD_RE.exec` plus the `parseInt` calls of the loop body:
`/^B(\d{2})(\d{2})(\d{2})(\d{2})(\d{5})([NS])(\d{3})(\d{5})([EW])([AV])(\d{5})(\d{5})/`.
The pattern is anchored at the start only, so any characters may follow the
35 matched ones. -/
def parseBRecord (l : List Char) : Option FixRecord :=
  match l with
  | 'B' :: h1 :: h2 :: n1 :: n2 :: s1 :: s2 :: a1 :: a2 :: b1 :: b2 :: b3 :: b4 :: b5 ::
      ns :: o1 :: o2 :: o3 :: q1 :: q2 :: q3 :: q4 :: q5 :: ew :: av ::
      g1 :: g2 :: g3 :: g4 :: g5 :: p1 :: p2 :: p3 :: p4 :: p5 :: _ =>
    if (isDig h1 ∧ isDig h2 ∧ isDig n1 ∧ isDig n2 ∧ isDig s1 ∧ isDig s2 ∧
        isDig a1 ∧ isDig a2 ∧ isDig b1 ∧ isDig b2 ∧ isDig b3 ∧ isDig b4 ∧ isDig b5 ∧
        (ns = 'N' ∨ ns = 'S') ∧
        isDig o1 ∧ isDig o2 ∧ isDig o3 ∧ isDig q1 ∧ isDig q2 ∧ isDig q3 ∧
        isDig q4 ∧ isDig q5 ∧
        (ew = 'E' ∨ ew = 'W') ∧ (av = 'A' ∨ av = 'V') ∧
        isDig g1 ∧ isDig g2 ∧ isDig g3 ∧ isDig g4 ∧ isDig g5 ∧
        isDig p1 ∧ isDig p2 ∧ isDig p3 ∧ isDig p4 ∧ isDig p5) then
      some { hour := d2 h1 h2, minute := d2 n1 n2, second := d2 s1 s2,
             latDeg := d2 a1 a2, latMin := d5 b1 b2 b3 b4 b5, ns := ns,
             lonDeg := d3 o1 o2 o3, lonMin := d5 q1 q2 q3 q4 q5, ew := ew,
             validity := av,
             gpsAlt := d5 g1 g2 g3 g4 g5, presAlt := d5 p1 p2 p3 p4 p5 }
    else none
  | _ => none

/-- `HFDTE_RECORD_RE.exec` plus the `parseInt` calls: `/^HFDTE(\d{2})(\d{2})(\d{2})/`,
returning (day, month, year) raw two-digit values. -/
def parseHFDTE (l : List Char) : Option (Nat × Nat × Nat) :=
  match l with
  | 'H' :: 'F' :: 'D' :: 'T' :: 'E' :: d1 :: e1 :: m1 :: m2 :: y1 :: y2 :: _ =>
    if isDig d1 ∧ isDig e1 ∧ isDig m1 ∧ isDig m2 ∧ isDig y1 ∧ isDig y2 then
      some (d2 d1 e1, d2 m1 m2, d2 y1 y2)
    else none
  | _ => none

/-- The character class `[A-Z]` of `H_RECORD_RE`. -/
def isUpper (c : Char) : Prop := 65 ≤ c.toNat ∧ c.toNat ≤ 90

instance (c : Char) : Decidable (isUpper c) := by
  unfold isUpper; infer_instance

/-- The lazy `.*?:` of `H_RECORD_RE`: the characters after the first colon,
or `none` if no colon occurs. -/
def afterColon : List Char → Option (List Char)
  | [] => none
  | ':' :: t => some t
  | _ :: t => afterColon t

/-- JavaScript `String.prototype.trim`: drop whitespace at both ends. -/
def trimChars (l : List Char) : List Char :=
  ((l.dropWhile Char.isWhitespace).reverse.dropWhile Char.isWhitespace).reverse

/-- `H_RECORD_RE.exec` plus the `.trim()` call: `/^H.([A-Z]{3}).*?:(.*)/`,
returning (key, trimmed value). -/
def parseHRecord (l : List Char) : Option (String × String) :=
  match l with
  | 'H' :: _ :: k1 :: k2 :: k3 :: rest =>
    if isUpper k1 ∧ isUpper k2 ∧ isUpper k3 then
      match afterColon rest with
      | some v => some (String.mk [k1, k2, k3], String.mk (trimChars v))
      | none => none
    else none
  | _ => none

/-- `text.split(NEWLINE_RE)` with `NEWLINE_RE = /\r\n|\r|\n/` (the `\r\n`
alternative is tried first). -/
def splitLines : List Char → List (List Char)
  | [] => [[]]
  | '\r' :: '\n' :: rest => [] :: splitLines rest
  | '\r' :: rest => [] :: splitLines rest
  | '\n' :: rest => [] :: splitLines rest
  | c :: rest =>
    match splitLines rest with
    | [] => [[c]]
    | h :: t => (c :: h) :: t

/-- ECMAScript DayFromYear: days from the epoch to 1 January of year `y`. -/
def daysFromYear (y : Int) : Int :=
  365 * (y - 1970) + (y - 1969).fdiv 4 - (y - 1901).fdiv 100 + (y - 1601).fdiv 400

/-- ECMAScript leap-year test (proleptic Gregorian). -/
def isLeapYear (y : Int) : Bool :=
  (y.emod 4 == 0 && y.emod 100 != 0) || y.emod 400 == 0

/-- Cumulative day count before 0-based month `m` (ECMAScript DayWithinYear
table); only arguments 0..11 are ever produced by `makeDay`. -/
def daysBeforeMonth (leap : Bool) (m : Nat) : Int :=
  match m with
  | 0 => 0
  | 1 => 31
  | 2 => if leap then 60 else 59
  | 3 => if leap then 91 else 90
  | 4 => if leap then 121 else 120
  | 5 => if leap then 152 else 151
  | 6 => if leap then 182 else 181
  | 7 => if leap then 213 else 212
  | 8 => if leap then 244 else 243
  | 9 => if leap then 274 else 273
  | 10 => if leap then 305 else 304
  | _ => if leap then 335 else 334

/-- ECMAScript MakeDay: the day number of (year, 0-based month, day); month
overflow is normalized into the year with `floor`, and the day may be any
integer offset from the first of the month. -/
def makeDay (y m d : Int) : Int :=
  let ym := y + m.fdiv 12
  let mn := (m.fmod 12).toNat
  daysFromYear ym + daysBeforeMonth (isLeapYear ym) mn + d - 1

/-- `Date.UTC(y, m, d, h, mi, s)` in milliseconds (MakeDay/MakeTime/MakeDate). -/
def dateUTC (y m d h mi s : Int) : Int :=
  makeDay y m d * 86400000 + (h * 3600000 + mi * 60000 + s * 1000)

/-- The mutable locals of `readFeatureFromText` that are threaded through the
line loop. -/
structure DecodeState where
  year : Int
  month : Int
  day : Int
  lastDateTime : Int
  flatCoordinates : List ℚ
  properties : List (String × String)
deriving DecidableEq

/-- The initial values: `year = 2000`, `month = 0`, `day = 1`,
`lastDateTime = -1`, empty buffer, empty properties object. -/
def initState : DecodeState :=
  { year := 2000, month := 0, day := 1, lastDateTime := -1,
    flatCoordinates := [], properties := [] }

/-- JavaScript object assignment `properties[k] = v`: overwrite in place when
the key exists, else append (string-keyed objects preserve insertion order). -/
def setProp (ps : List (String × String)) (k v : String) : List (String × String) :=
  if ps.any (fun p => p.1 = k) then ps.map (fun p => if p.1 = k then (k, v) else p)
  else ps ++ [(k, v)]

/-- Latitude of a fix: `deg + thousandths / 60000`, negated for hemisphere S. -/
def latVal (r : FixRecord) : ℚ :=
  if r.ns = 'S' then -((r.latDeg : ℚ) + (r.latMin : ℚ) / 60000)
  else (r.latDeg : ℚ) + (r.latMin : ℚ) / 60000

/-- Longitude of a fix: `deg + thousandths / 60000`, negated for hemisphere W. -/
def lonVal (r : FixRecord) : ℚ :=
  if r.ew = 'W' then -((r.lonDeg : ℚ) + (r.lonMin : ℚ) / 60000)
  else (r.lonDeg : ℚ) + (r.lonMin : ℚ) / 60000

/-- The altitude component `z` pushed for one fix when the mode is not `none`:
the first trailing five-digit group for `gps`, the second for `barometric`,
`0` otherwise. -/
def zVal (altitudeMode : String) (r : FixRecord) : ℚ :=
  if altitudeMode = "gps" then (r.gpsAlt : ℚ)
  else if altitudeMode = "barometric" then (r.presAlt : ℚ)
  else 0

/-- One iteration of the `for` loop of `readFeatureFromText`. -/
def processLine (altitudeMode : String) (st : DecodeState) (line : List Char) :
    DecodeState :=
  if line.head? = some 'B' then
    match parseBRecord line with
    | some r =>
      let coords := st.flatCoordinates ++ [lonVal r, latVal r]
      let coords :=
        if altitudeMode ≠ "none" then coords ++ [zVal altitudeMode r] else coords
      let dateTime := dateUTC st.year st.month st.day r.hour r.minute r.second
      let dateTime :=
        if dateTime < st.lastDateTime then
          dateUTC st.year st.month (st.day + 1) r.hour r.minute r.second
        else dateTime
      { st with flatCoordinates := coords ++ [(dateTime : ℚ) / 1000],
                lastDateTime := dateTime }
    | none => st
  else if line.head? = some 'H' then
    match parseHFDTE line with
    | some (d, mo, y) =>
      { st with day := (d : Int), month := (mo : Int) - 1, year := 2000 + (y : Int) }
    | none =>
      match parseHRecord line with
      | some (k, v) => { st with properties := setProp st.properties k v }
      | none => st
  else st

/-- The decoded feature: the `LineString` flat-coordinate buffer, its layout
tag, and the collected properties (geometry construction and reprojection are
out-of-scope collaborators and are modelled by the data handed to them). -/
structure Feature where
  flatCoordinates : List ℚ
  layout : String
  properties : List (String × String)
deriving DecidableEq

/-- `readFeatureFromText`: split the text into lines, run the loop, and
return `null` when the buffer is empty, else the feature with layout `XYM`
for altitude mode `none` and `XYZM` otherwise. -/
def readFeatureFromText (altitudeMode : String) (text : List Char) : Option Feature :=
  let lines := splitLines text
  let st := lines.foldl (processLine altitudeMode) initState
  if st.flatCoordinates = [] then none
  else
    some { flatCoordinates := st.flatCoordinates,
           layout := if altitudeMode = "none" then "XYM" else "XYZM",
           properties := st.properties }

/-- `readFeaturesFromText`: the single feature wrapped in a list, or `[]`. -/
def readFeaturesFromText (altitudeMode : String) (text : List Char) : List Feature :=
  match readFeatureFromText altitudeMode text with
  | some f => [f]
  | none => []

/-- Constructor option handling (`options.altitudeMode ? options.altitudeMode :
IGCZ.NONE`): among strings exactly the empty string is falsy in JavaScript; an
absent option also falls back to `'none'`. -/
def igcAltitudeMode (opt : Option String) : String :=
  match opt with
  | some s => if s = "" then "none" else s
  | none => "none"

/-- `writeFeatureText` has an empty body: the call completes normally with
`undefined` (modelled `Except.ok none`) and never throws. -/
def writeFeatureText (_feature : Feature) : Except String (Option String) :=
  Except.ok none

/-- `writeFeaturesText` has an empty body: normal completion, `undefined`. -/
def writeFeaturesText (_features : List Feature) : Except String (Option String) :=
  Except.ok none

/-- `writeGeometryText` has an empty body: normal completion, `undefined`. -/
def writeGeometryText (_geometry : List ℚ) : Except String (Option String) :=
  Except.ok none

/-- The timestamp (ms) committed for one fix: the candidate from the current
date context, advanced by one calendar day when the candidate is before the
previous committed timestamp. -/
def wrapTime (st : DecodeState) (r : FixRecord) : Int :=
  let c := dateUTC st.year st.month st.day r.hour r.minute r.second
  if c < st.lastDateTime then
    dateUTC st.year st.month (st.day + 1) r.hour r.minute r.second
  else c

/-- The block of flat coordinates pushed for one fix with committed
timestamp `t` (ms). -/
def fixBlock (altitudeMode : String) (r : FixRecord) (t : Int) : List ℚ :=
  [lonVal r, latVal r] ++ (if altitudeMode ≠ "none" then [zVal altitudeMode r] else [])
    ++ [(t : ℚ) / 1000]

/-- Points are 3 numbers wide for altitude mode `none` and 4 otherwise. -/
def strideOf (altitudeMode : String) : Nat := if altitudeMode = "none" then 3 else 4

/-- Milliseconds of a fix's time of day. -/
def todMs (r : FixRecord) : Int :=
  (r.hour : Int) * 3600000 + (r.minute : Int) * 60000 + (r.second : Int) * 1000

/-- The candidate timestamp (ms) of a fix under date context `(y, m, d)`. -/
def candOf (y m d : Int) (r : FixRecord) : Int :=
  dateUTC y m d r.hour r.minute r.second

/-- The committed timestamps (ms) of a run of fixes under a fixed date
context, starting from a given previous timestamp. -/
def seqTimes (y m d : Int) : Int → List FixRecord → List Int
  | _, [] => []
  | last, r :: rs =>
    let e := if candOf y m d r < last then candOf y m (d + 1) r else candOf y m d r
    e :: seqTimes y m d e rs

/-- Fuel-driven extractor of the last element of each `stride`-sized block of
a flat-coordinate buffer (the time components of the decoded points). -/
def timeComponentsAux (fuel stride : Nat) (l : List ℚ) : List ℚ :=
  match fuel, l with
  | 0, _ => []
  | _, [] => []
  | fuel + 1, l =>
    ((l.take stride).getLast?.elim [] fun t => [t]) ++
      timeComponentsAux fuel stride (l.drop stride)

/-- The time components of a flat-coordinate buffer of points `stride`
numbers wide: the last element of each consecutive block. -/
def timeComponents (stride : Nat) (l : List ℚ) : List ℚ :=
  timeComponentsAux l.length stride l

/-- Whether a modelled JavaScript call result is a raised exception. -/
def raisesError (e : Except String (Option String)) : Bool :=
  match e with
  | Except.error _ => true
  | Except.ok _ => false

/-- Two lines that are either identical, or a decodable fix line and the same
line with its validity letter (index 24) replaced by another letter in
{A, V}. -/
def validityTwin (l l2 : List Char) : Prop :=
  l2 = l ∨ ∃ (r : FixRecord) (c : Char), parseBRecord l = some r ∧
    (c = 'A' ∨ c = 'V') ∧ l2 = l.set 24 c

def rec95 : FixRecord :=
  { hour := 0, minute := 0, second := 0, latDeg := 95, latMin := 0,
    ns := 'N', lonDeg := 1, lonMin := 0, ew := 'E', validity := 'A',
    gpsAlt := 0, presAlt := 0 }

def rec123 : FixRecord :=
  { hour := 10, minute := 11, second := 10, latDeg := 50, latMin := 0,
    ns := 'N', lonDeg := 1, lonMin := 0, ew := 'E', validity := 'A',
    gpsAlt := 123, presAlt := 89 }

theorem dval_le {c : Char} (h : isDig c) : dval c ≤ 9 := by
  rcases h with ⟨h1, h2⟩
  unfold dval
  omega

theorem parseB_head {l : List Char} {r : FixRecord} (h : parseBRecord l = some r) :
    l.head? = some 'B' := by
  unfold parseBRecord at h
  split at h
  · rfl
  · exact absurd h (by simp)

theorem parseB_length {l : List Char} {r : FixRecord} (h : parseBRecord l = some r) :
    35 ≤ l.length := by
  unfold parseBRecord at h
  split at h
  · simp [List.length_cons]
  · exact absurd h (by simp)

theorem parseB_fields {l : List Char} {r : FixRecord} (h : parseBRecord l = some r) :
    r.hour ≤ 99 ∧ r.minute ≤ 99 ∧ r.second ≤ 99 ∧
    r.latDeg ≤ 99 ∧ r.latMin ≤ 99999 ∧ r.lonDeg ≤ 999 ∧ r.lonMin ≤ 99999 ∧
    (r.ns = 'N' ∨ r.ns = 'S') ∧ (r.ew = 'E' ∨ r.ew = 'W') ∧
    (r.validity = 'A' ∨ r.validity = 'V') := by
  unfold parseBRecord at h
  split at h
  · split at h
    · next hg =>
      obtain ⟨q1, q2, q3, q4, q5, q6, q7, q8, q9, q10, q11, q12, q13, hns,
        w1, w2, w3, w4, w5, w6, w7, w8, hew, hav, e1, e2, e3, e4, e5,
        f1, f2, f3, f4, f5⟩ := hg
      cases h
      have v1 := dval_le q1
      have v2 := dval_le q2
      have v3 := dval_le q3
      have v4 := dval_le q4
      have v5 := dval_le q5
      have v6 := dval_le q6
      have v7 := dval_le q7
      have v8 := dval_le q8
      have v9 := dval_le q9
      have v10 := dval_le q10
      have v11 := dval_le q11
      have v12 := dval_le q12
      have v13 := dval_le q13
      have u1 := dval_le w1
      have u2 := dval_le w2
      have u3 := dval_le w3
      have u4 := dval_le w4
      have u5 := dval_le w5
      have u6 := dval_le w6
      have u7 := dval_le w7
      have u8 := dval_le w8
      refine ⟨?_, ?_, ?_, ?_, ?_, ?_, ?_, hns, hew, hav⟩ <;>
        simp only [d2, d3, d5] <;> omega
    · exact absurd h (by simp)
  · exact absurd h (by simp)

theorem processLine_fix (alt : String) (st : DecodeState) {line : List Char}
    {r : FixRecord} (h : parseBRecord line = some r) :
    processLine alt st line =
      { st with flatCoordinates := st.flatCoordinates ++ fixBlock alt r (wrapTime st r),
                lastDateTime := wrapTime st r } := by
  have hb := parseB_head h
  unfold processLine
  rw [if_pos hb, h]
  simp only [fixBlock, wrapTime]
  split <;> split <;> simp [List.append_assoc]

theorem processLine_nonfix (alt : String) (st : DecodeState) {line : List Char}
    (h : parseBRecord line = none) :
    (processLine alt st line).flatCoordinates = st.flatCoordinates := by
  unfold processLine
  split
  · rw [h]
  · split
    · rcases hf : parseHFDTE line with _ | ⟨⟨d, mo, y⟩⟩ <;> simp only [hf]
      · rcases hh : parseHRecord line with _ | ⟨⟨k, v⟩⟩ <;> simp [hh]
    · rfl

theorem processLine_nonfix_noHFDTE (alt : String) (st : DecodeState) {line : List Char}
    (h1 : parseBRecord line = none) (h2 : parseHFDTE line = none) :
    ∃ ps, processLine alt st line = { st with properties := ps } := by
  unfold processLine
  split
  · exact ⟨st.properties, by rw [h1]⟩
  · split
    · rw [h2]
      rcases hh : parseHRecord line with _ | ⟨⟨k, v⟩⟩
      · exact ⟨st.properties, rfl⟩
      · exact ⟨setProp st.properties k v, rfl⟩
    · exact ⟨st.properties, rfl⟩

theorem foldl_flat (alt : String) (lines : List (List Char)) :
    ∀ st : DecodeState, ∃ ts : List Int,
      ts.length = (lines.filterMap parseBRecord).length ∧
      (lines.foldl (processLine alt) st).flatCoordinates =
        st.flatCoordinates ++
          (((lines.filterMap parseBRecord).zip ts).flatMap fun p => fixBlock alt p.1 p.2) := by
  induction lines with
  | nil => exact fun st => ⟨[], rfl, by simp⟩
  | cons l lines ih =>
    intro st
    rw [List.foldl_cons]
    rcases hp : parseBRecord l with _ | r
    · obtain ⟨ts, hlen, hflat⟩ := ih (processLine alt st l)
      exact ⟨ts, by simpa [List.filterMap_cons, hp] using hlen,
        by rw [hflat, processLine_nonfix alt st hp, List.filterMap_cons, hp]⟩
    · obtain ⟨ts, hlen, hflat⟩ := ih (processLine alt st l)
      refine ⟨wrapTime st r :: ts, ?_, ?_⟩
      · simp [List.filterMap_cons, hp, hlen]
      · rw [hflat, processLine_fix alt st hp]
        simp [List.filterMap_cons, hp, List.append_assoc]

theorem foldl_noHFDTE (alt : String) (lines : List (List Char)) :
    ∀ st : DecodeState, (∀ l ∈ lines, parseHFDTE l = none) →
      (lines.foldl (processLine alt) st).flatCoordinates =
        st.flatCoordinates ++
          (((lines.filterMap parseBRecord).zip
              (seqTimes st.year st.month st.day st.lastDateTime
                (lines.filterMap parseBRecord))).flatMap fun p => fixBlock alt p.1 p.2) := by
  induction lines with
  | nil => intro st _; simp
  | cons l lines ih =>
    intro st hno
    rw [List.foldl_cons]
    rcases hp : parseBRecord l with _ | r
    · obtain ⟨ps, hps⟩ := processLine_nonfix_noHFDTE alt st hp (hno l (by simp))
      rw [hps, ih _ (fun x hx => hno x (by simp [hx])), List.filterMap_cons, hp]
    · rw [processLine_fix alt st hp, ih _ (fun x hx => hno x (by simp [hx])),
        List.filterMap_cons, hp]
      simp only [seqTimes]
      rw [List.zip_cons_cons, List.flatMap_cons]
      simp [wrapTime, candOf, List.append_assoc]

theorem timeComponentsAux_congr (stride : Nat) (hs : 1 ≤ stride) :
    ∀ (f1 : Nat) (l : List ℚ) (f2 : Nat), l.length ≤ f1 → l.length ≤ f2 →
      timeComponentsAux f1 stride l = timeComponentsAux f2 stride l := by
  intro f1
  induction f1 with
  | zero =>
    intro l f2 h1 _
    have hl : l = [] := List.eq_nil_of_length_eq_zero (by omega)
    subst hl
    cases f2 <;> rfl
  | succ f1 ih =>
    intro l f2 h1 h2
    rcases l with _ | ⟨x, xs⟩
    · cases f2 <;> rfl
    · rcases f2 with _ | f2
      · simp at h2
      · simp only [timeComponentsAux]
        rw [ih ((x :: xs).drop stride) f2 ?_ ?_]
        · rw [List.length_drop]
          simp only [List.length_cons] at h1 ⊢
          omega
        · rw [List.length_drop]
          simp only [List.length_cons] at h2 ⊢
          omega

theorem timeComponents_block (stride : Nat) (hs : 1 ≤ stride) (b rest : List ℚ)
    (hb : b.length = stride) (t : ℚ) (ht : b.getLast? = some t) :
    timeComponents stride (b ++ rest) = t :: timeComponents stride rest := by
  have hbne : b ≠ [] := by
    intro h
    rw [h, List.length_nil] at hb
    omega
  obtain ⟨x, b', rfl⟩ := List.exists_cons_of_ne_nil hbne
  have hb' : b'.length + 1 = stride := by simpa using hb
  unfold timeComponents
  rw [List.cons_append, List.length_cons]
  simp only [timeComponentsAux]
  rw [← hb', List.take_succ_cons, List.drop_succ_cons, List.take_left, List.drop_left]
  rw [ht]
  simp only [Option.elim]
  rw [timeComponentsAux_congr (b'.length + 1) (by omega) ((b' ++ rest).length) rest
    rest.length (by simp) le_rfl]
  simp

theorem fixBlock_length (alt : String) (r : FixRecord) (t : Int) :
    (fixBlock alt r t).length = strideOf alt := by
  unfold fixBlock strideOf
  split <;> simp_all

theorem fixBlock_getLast (alt : String) (r : FixRecord) (t : Int) :
    (fixBlock alt r t).getLast? = some ((t : ℚ) / 1000) := by
  unfold fixBlock
  split <;> simp

theorem timeComponents_flatMap (alt : String) (rs : List FixRecord) :
    ∀ ts : List Int,
      timeComponents (strideOf alt) ((rs.zip ts).flatMap fun p => fixBlock alt p.1 p.2) =
        ((rs.zip ts).map fun p => ((p.2 : Int) : ℚ) / 1000) := by
  have hs : 1 ≤ strideOf alt := by unfold strideOf; split <;> omega
  induction rs with
  | nil => intro ts; simp [timeComponents, timeComponentsAux]
  | cons r rs ih =>
    intro ts
    rcases ts with _ | ⟨t, ts⟩
    · simp [timeComponents, timeComponentsAux]
    · rw [List.zip_cons_cons, List.flatMap_cons,
        timeComponents_block _ hs _ _ (fixBlock_length alt r t) _ (fixBlock_getLast alt r t),
        ih ts, List.map_cons]

theorem dateUTC_day_succ (y m d h mi s : Int) :
    dateUTC y m (d + 1) h mi s = dateUTC y m d h mi s + 86400000 := by
  unfold dateUTC makeDay
  ring

theorem todMs_nonneg (r : FixRecord) : 0 ≤ todMs r := by
  unfold todMs
  positivity

theorem candOf_base (r : FixRecord) : candOf 2000 0 1 r = 946684800000 + todMs r := by
  have hmk : makeDay 2000 0 1 = 10957 := by decide
  unfold candOf dateUTC todMs
  rw [hmk]
  ring

theorem candOf_day_succ (y m d : Int) (r : FixRecord) :
    candOf y m (d + 1) r = candOf y m d r + 86400000 := by
  unfold candOf
  exact dateUTC_day_succ y m d r.hour r.minute r.second

theorem seqTimes_sorted_eq (y m d : Int) (rs : List FixRecord) :
    ∀ last : Int, List.Chain' (· ≤ ·) (rs.map (candOf y m d)) →
      (∀ r0 ∈ rs.head?, last ≤ candOf y m d r0) →
      seqTimes y m d last rs = rs.map (candOf y m d) := by
  induction rs with
  | nil => intro last _ _; rfl
  | cons r rs ih =>
    intro last hc hh
    have hlast : last ≤ candOf y m d r := hh r rfl
    rw [List.map_cons] at hc ⊢
    rw [List.chain'_cons'] at hc
    simp only [seqTimes]
    rw [if_neg (not_lt.mpr hlast)]
    have htail := ih (candOf y m d r) hc.2 ?_
    · rw [htail]
    · intro r1 hr1
      exact hc.1 (candOf y m d r1) (by rw [List.head?_map, hr1]; rfl)

theorem seqTimes_chain_from (y m d : Int) (rs : List FixRecord) :
    ∀ last : Int, List.Chain' (· ≤ ·) (rs.map (candOf y m d)) →
      (∀ r0 ∈ rs.head?, last ≤ candOf y m d r0 + 86400000) →
      List.Chain' (· ≤ ·) (last :: seqTimes y m d last rs) := by
  induction rs with
  | nil => intro last _ _; simp [seqTimes]
  | cons r rs ih =>
    intro last hc hh
    have hlast : last ≤ candOf y m d r + 86400000 := hh r rfl
    rw [List.map_cons, List.chain'_cons'] at hc
    have hnext : ∀ r1 ∈ rs.head?, candOf y m d r ≤ candOf y m d r1 := by
      intro r1 hr1
      exact hc.1 (candOf y m d r1) (by rw [List.head?_map, hr1]; rfl)
    simp only [seqTimes]
    by_cases hlt : candOf y m d r < last
    · rw [if_pos hlt, List.chain'_cons]
      constructor
      · rw [candOf_day_succ]
        exact hlast
      · refine ih _ hc.2 ?_
        intro r1 hr1
        rw [candOf_day_succ]
        have := hnext r1 hr1
        omega
    · rw [if_neg hlt, List.chain'_cons]
      constructor
      · exact not_lt.mp hlt
      · refine ih _ hc.2 ?_
        intro r1 hr1
        have := hnext r1 hr1
        omega

theorem getLastD_cons (a last : Int) (xs : List Int) :
    (a :: xs).getLast?.getD last = xs.getLast?.getD a := by
  rcases xs with _ | ⟨b, bs⟩
  · simp
  · rw [List.getLast?_cons_cons]
    have hsome : ((b :: bs).getLast?).isSome = true := by
      rw [List.getLast?_isSome]
      simp
    rcases hq : (b :: bs).getLast? with _ | v
    · rw [hq] at hsome
      simp at hsome
    · simp

theorem seqTimes_append (y m d : Int) (l1 l2 : List FixRecord) :
    ∀ last : Int, seqTimes y m d last (l1 ++ l2) =
      seqTimes y m d last l1 ++
        seqTimes y m d ((seqTimes y m d last l1).getLast?.getD last) l2 := by
  induction l1 with
  | nil => intro last; simp [seqTimes]
  | cons r l1 ih =>
    intro last
    rw [List.cons_append]
    simp only [seqTimes]
    rw [ih]
    rw [getLastD_cons]
    simp [List.cons_append]

theorem seqTimes_chain_two_runs (rs : List FixRecord)
    (htod : ∀ r ∈ rs, todMs r < 86400000) (k : Nat)
    (h1 : List.Chain' (· ≤ ·) ((rs.map todMs).take k))
    (h2 : List.Chain' (· ≤ ·) ((rs.map todMs).drop k)) :
    List.Chain' (· ≤ ·) (seqTimes 2000 0 1 (-1) rs) := by
  rw [← List.map_take] at h1
  rw [← List.map_drop] at h2
  have hcand1 : List.Chain' (· ≤ ·) ((rs.take k).map (candOf 2000 0 1)) := by
    rw [List.chain'_map] at h1 ⊢
    refine h1.imp ?_
    intro a b hab
    rw [candOf_base, candOf_base]
    omega
  have hcand2 : List.Chain' (· ≤ ·) ((rs.drop k).map (candOf 2000 0 1)) := by
    rw [List.chain'_map] at h2 ⊢
    refine h2.imp ?_
    intro a b hab
    rw [candOf_base, candOf_base]
    omega
  have hsplit := List.take_append_drop k rs
  rw [← hsplit]
  rw [seqTimes_append]
  have hrun1 : seqTimes 2000 0 1 (-1) (rs.take k) = (rs.take k).map (candOf 2000 0 1) := by
    refine seqTimes_sorted_eq 2000 0 1 (rs.take k) (-1) hcand1 ?_
    intro r0 _
    have := todMs_nonneg r0
    rw [candOf_base]
    omega
  rw [hrun1]
  have hch2 : List.Chain' (· ≤ ·)
      ((((rs.take k).map (candOf 2000 0 1)).getLast?.getD (-1)) ::
        seqTimes 2000 0 1 (((rs.take k).map (candOf 2000 0 1)).getLast?.getD (-1))
          (rs.drop k)) := by
    refine seqTimes_chain_from 2000 0 1 (rs.drop k) _ hcand2 ?_
    intro r0 hr0
    have htod0 := todMs_nonneg r0
    rcases hgl : ((rs.take k).map (candOf 2000 0 1)).getLast? with _ | x
    · rw [candOf_base]
      simp only [Option.getD]
      omega
    · have hx := List.mem_of_mem_getLast? hgl
      obtain ⟨r1, hr1, hxr1⟩ := List.mem_map.mp hx
      have hr1rs : r1 ∈ rs := List.mem_of_mem_take hr1
      have htod1 := htod r1 hr1rs
      have htod1n := todMs_nonneg r1
      simp only [Option.getD]
      rw [← hxr1, candOf_base, candOf_base]
      omega
  rw [List.chain'_append]
  refine ⟨hcand1, (List.chain'_cons'.mp hch2).2, ?_⟩
  intro x hx b hb
  have hx' : ((rs.take k).map (candOf 2000 0 1)).getLast?.getD (-1) = x := by
    rw [hx]
    rfl
  rw [← hx']
  exact (List.chain'_cons'.mp hch2).1 b hb

theorem seqTimes_length (y m d : Int) (rs : List FixRecord) :
    ∀ last : Int, (seqTimes y m d last rs).length = rs.length := by
  induction rs with
  | nil => intro last; rfl
  | cons r rs ih => intro last; simp only [seqTimes, List.length_cons, ih]

theorem readFeature_some (alt : String) (text : List Char) (f : Feature)
    (hf : readFeatureFromText alt text = some f) :
    f.flatCoordinates = ((splitLines text).foldl (processLine alt) initState).flatCoordinates ∧
    f.layout = (if alt = "none" then "XYM" else "XYZM") ∧
    f.properties = ((splitLines text).foldl (processLine alt) initState).properties := by
  simp only [readFeatureFromText] at hf
  by_cases h0 : ((splitLines text).foldl (processLine alt) initState).flatCoordinates = []
  · rw [if_pos h0] at hf
    exact absurd hf (by simp)
  · rw [if_neg h0] at hf
    injection hf with h
    rw [← h]
    exact ⟨rfl, rfl, rfl⟩

/-- C1 (amended): for a document without date-header lines whose fix
times-of-day are genuine times of day (below 24 h) and wrap across UTC
midnight at most once — i.e. they form at most two non-decreasing runs — the
time components of the decoded track are monotonically non-decreasing.  (As
stated, over *more* than one midnight, the claim is false: the correction
advances the date context by at most one day and never persists it, see the
counterexample.) -/
theorem igc_C1_track_times_monotone (alt : String) (text : List Char) (f : Feature)
    (hno : ∀ l ∈ splitLines text, parseHFDTE l = none)
    (htod : ∀ r ∈ (splitLines text).filterMap parseBRecord, todMs r < 86400000)
    (hruns : ∃ k, List.Chain' (· ≤ ·)
        ((((splitLines text).filterMap parseBRecord).map todMs).take k) ∧
      List.Chain' (· ≤ ·)
        ((((splitLines text).filterMap parseBRecord).map todMs).drop k))
    (hf : readFeatureFromText alt text = some f) :
    List.Chain' (· ≤ ·) (timeComponents (strideOf alt) f.flatCoordinates) := by
  obtain ⟨k, h1, h2⟩ := hruns
  have hflat := (readFeature_some alt text f hf).1
  have hdec := foldl_noHFDTE alt (splitLines text) initState hno
  rw [hflat, hdec]
  simp only [initState, List.nil_append]
  rw [timeComponents_flatMap]
  have hts : List.Chain' (· ≤ ·)
      (seqTimes 2000 0 1 (-1) ((splitLines text).filterMap parseBRecord)) :=
    seqTimes_chain_two_runs _ htod k h1 h2
  have hsnd : List.map Prod.snd
      (((splitLines text).filterMap parseBRecord).zip
        (seqTimes 2000 0 1 (-1) ((splitLines text).filterMap parseBRecord))) =
      seqTimes 2000 0 1 (-1) ((splitLines text).filterMap parseBRecord) := by
    apply List.map_snd_zip
    rw [seqTimes_length]
  rw [← hsnd] at hts
  rw [List.chain'_map] at hts
  rw [List.chain'_map]
  refine hts.imp ?_
  intro a b hab
  have hq : ((a.2 : Int) : ℚ) ≤ ((b.2 : Int) : ℚ) := by exact_mod_cast hab
  gcongr

theorem processLine_hfdte (alt : String) (st : DecodeState) {line : List Char}
    {d mo y : Nat} (h : parseHFDTE line = some (d, mo, y)) :
    processLine alt st line =
      { st with day := (d : Int), month := (mo : Int) - 1, year := 2000 + (y : Int) } := by
  have hhead : line.head? = some 'H' := by
    unfold parseHFDTE at h
    split at h
    · rfl
    · exact absurd h (by simp)
  unfold processLine
  rw [if_neg (by rw [hhead]; simp), if_pos hhead, h]

/-- Decode of a two-fix document whose times cross UTC midnight once
(23:59:58 then 00:00:02, default date context 2000-01-01). -/
theorem eval_rollover_doc :
    readFeatureFromText "none"
        (("B2359585000000N00100000EA0000000000" ++ "\n" ++
          "B0000025000000N00100000EA0000000000").toList) =
      some { flatCoordinates := [1, 50, 946771198, 1, 50, 946771202],
             layout := "XYM", properties := [] } := by
  have h1 : splitLines (("B2359585000000N00100000EA0000000000" ++ "\n" ++
      "B0000025000000N00100000EA0000000000").toList) =
      ["B2359585000000N00100000EA0000000000".toList,
       "B0000025000000N00100000EA0000000000".toList] := by decide
  have h2 : parseBRecord ("B2359585000000N00100000EA0000000000".toList) =
      some { hour := 23, minute := 59, second := 58, latDeg := 50, latMin := 0, ns := 'N',
             lonDeg := 1, lonMin := 0, ew := 'E', validity := 'A',
             gpsAlt := 0, presAlt := 0 } := by decide
  have h3 : parseBRecord ("B0000025000000N00100000EA0000000000".toList) =
      some { hour := 0, minute := 0, second := 2, latDeg := 50, latMin := 0, ns := 'N',
             lonDeg := 1, lonMin := 0, ew := 'E', validity := 'A',
             gpsAlt := 0, presAlt := 0 } := by decide
  rw [readFeatureFromText, h1]
  simp only [List.foldl]
  rw [processLine_fix _ _ h2, processLine_fix _ _ h3]
  norm_num +decide [initState, fixBlock, wrapTime, lonVal, latVal, zVal, dateUTC, makeDay,
    daysFromYear, isLeapYear, daysBeforeMonth, Int.fdiv, Int.fmod]

/-- Decode of a single-fix document (10:11:10 at 50°N 1°E, GPS altitude 123,
pressure altitude 89, default date context) in mode `none`. -/
theorem eval_simple_none_doc :
    readFeatureFromText "none" ("B1011105000000N00100000EA0012300089".toList) =
      some { flatCoordinates := [1, 50, 946721470], layout := "XYM", properties := [] } := by
  have h1 : splitLines ("B1011105000000N00100000EA0012300089".toList) =
      ["B1011105000000N00100000EA0012300089".toList] := by decide
  have h2 : parseBRecord ("B1011105000000N00100000EA0012300089".toList) =
      some { hour := 10, minute := 11, second := 10, latDeg := 50, latMin := 0, ns := 'N',
             lonDeg := 1, lonMin := 0, ew := 'E', validity := 'A',
             gpsAlt := 123, presAlt := 89 } := by decide
  rw [readFeatureFromText, h1]
  simp only [List.foldl]
  rw [processLine_fix _ _ h2]
  norm_num +decide [initState, fixBlock, wrapTime, lonVal, latVal, zVal, dateUTC, makeDay,
    daysFromYear, isLeapYear, daysBeforeMonth, Int.fdiv, Int.fmod]

/-- Decode of the spec's example document (date header 23 Aug 2020, one fix
at 10:11:10, 50°N 1°E, GPS altitude 123) in mode `gps`. -/
theorem eval_spec_gps_doc :
    readFeatureFromText "gps"
        (("HFDTE230820" ++ "\n" ++ "B1011105000000N00100000EA0012300089").toList) =
      some { flatCoordinates := [1, 50, 123, 1598177470],
             layout := "XYZM", properties := [] } := by
  have h1 : splitLines (("HFDTE230820" ++ "\n" ++
      "B1011105000000N00100000EA0012300089").toList) =
      ["HFDTE230820".toList, "B1011105000000N00100000EA0012300089".toList] := by decide
  have h0 : parseHFDTE ("HFDTE230820".toList) = some (23, 8, 20) := by decide
  have h2 : parseBRecord ("B1011105000000N00100000EA0012300089".toList) =
      some { hour := 10, minute := 11, second := 10, latDeg := 50, latMin := 0, ns := 'N',
             lonDeg := 1, lonMin := 0, ew := 'E', validity := 'A',
             gpsAlt := 123, presAlt := 89 } := by decide
  rw [readFeatureFromText, h1]
  simp only [List.foldl]
  rw [processLine_hfdte _ _ h0, processLine_fix _ _ h2]
  norm_num +decide [initState, fixBlock, wrapTime, lonVal, latVal, zVal, dateUTC, makeDay,
    daysFromYear, isLeapYear, daysBeforeMonth, Int.fdiv, Int.fmod, Int.toNat]

/-- C2: for every decoded fix the committed timestamp is the calendar
timestamp of (current date context, hour, minute, second), recomputed with
day + 1 exactly when the candidate is strictly before the previous fix's
timestamp; and on the two-fix document 23:59:58 / 00:00:02 without a date
header the second timestamp exceeds the first by exactly 4 seconds. -/
theorem igc_C2_timestamp_rule :
    (∀ (alt : String) (st : DecodeState) (line : List Char) (r : FixRecord),
      parseBRecord line = some r →
        (processLine alt st line).lastDateTime =
          (if dateUTC st.year st.month st.day r.hour r.minute r.second < st.lastDateTime
           then dateUTC st.year st.month (st.day + 1) r.hour r.minute r.second
           else dateUTC st.year st.month st.day r.hour r.minute r.second) ∧
        (processLine alt st line).flatCoordinates.getLast? =
          some (((processLine alt st line).lastDateTime : ℚ) / 1000)) ∧
    readFeatureFromText "none"
        (("B2359585000000N00100000EA0000000000" ++ "\n" ++
          "B0000025000000N00100000EA0000000000").toList) =
      some { flatCoordinates := [1, 50, 946771198, 1, 50, 946771202],
             layout := "XYM", properties := [] } ∧
    (946771202 : ℚ) = 946771198 + 4 := by
  refine ⟨?_, eval_rollover_doc, by norm_num⟩
  intro alt st line r h
  rw [processLine_fix alt st h]
  refine ⟨rfl, ?_⟩
  rw [List.getLast?_append, fixBlock_getLast]
  rfl

/-- C4: the flat-coordinate buffer of a decoded feature is exactly the
concatenation, over the fixes decoded from the document in order, of blocks
`[x, y] ++ (z unless mode is none) ++ [t]`; each block is 3 numbers wide in
mode `none` and 4 otherwise, with `z` the first trailing five-digit group
(GPS altitude) in mode `gps` and the second (pressure altitude) in mode
`barometric`. -/
theorem igc_C4_point_components (alt : String) (text : List Char) (f : Feature)
    (hf : readFeatureFromText alt text = some f) :
    ∃ ts : List Int,
      ts.length = ((splitLines text).filterMap parseBRecord).length ∧
      f.flatCoordinates =
        (((splitLines text).filterMap parseBRecord).zip ts).flatMap
          (fun p => fixBlock alt p.1 p.2) ∧
      (∀ (r : FixRecord) (t : Int),
        fixBlock alt r t =
          [lonVal r, latVal r] ++ (if alt = "none" then [] else [zVal alt r]) ++
            [(t : ℚ) / 1000] ∧
        (fixBlock alt r t).length = (if alt = "none" then 3 else 4)) ∧
      (∀ r : FixRecord, alt = "gps" → zVal alt r = (r.gpsAlt : ℚ)) ∧
      (∀ r : FixRecord, alt = "barometric" → zVal alt r = (r.presAlt : ℚ)) := by
  obtain ⟨ts, hlen, hflat⟩ := foldl_flat alt (splitLines text) initState
  refine ⟨ts, hlen, ?_, ?_, ?_, ?_⟩
  · rw [(readFeature_some alt text f hf).1, hflat]
    simp [initState]
  · intro r t
    constructor
    · unfold fixBlock
      by_cases h : alt = "none" <;> simp [h]
    · rw [fixBlock_length]
      unfold strideOf
      by_cases h : alt = "none" <;> simp [h]
  · intro r h
    subst h
    unfold zVal
    simp
  · intro r h
    subst h
    unfold zVal
    simp

/-- C7: a document in which no line parses as a fix (empty documents and
header-only documents included) decodes to the empty feature list, and no
feature is produced at all. -/
theorem igc_C7_no_fix_empty (alt : String) (text : List Char)
    (h : (splitLines text).filterMap parseBRecord = []) :
    readFeaturesFromText alt text = [] ∧ readFeatureFromText alt text = none := by
  obtain ⟨ts, _, hflat⟩ := foldl_flat alt (splitLines text) initState
  rw [h] at hflat
  simp only [List.zip_nil_left, List.flatMap_nil, List.append_nil] at hflat
  have hflat2 : ((splitLines text).foldl (processLine alt) initState).flatCoordinates = [] :=
    hflat.trans rfl
  have hnone : readFeatureFromText alt text = none := by
    simp only [readFeatureFromText]
    rw [if_pos hflat2]
  refine ⟨?_, hnone⟩
  simp only [readFeaturesFromText]
  rw [hnone]

/-- C8: a header line matching the `HFDTE` date layout unconditionally
overwrites the date context with day = DD, month = MM − 1, year = 2000 + YY,
and changes nothing else — in particular it never contributes a property
entry, the generic-header path being skipped for it. -/
theorem igc_C8_date_header (alt : String) (st : DecodeState) (line : List Char)
    (d mo y : Nat) (h : parseHFDTE line = some (d, mo, y)) :
    processLine alt st line =
      { st with day := (d : Int), month := (mo : Int) - 1, year := 2000 + (y : Int) } :=
  processLine_hfdte alt st h

/-- C3 (amended): the regular expression bounds the digit fields (two digits
of latitude degrees, three of longitude degrees, five of minute-thousandths)
but performs no range validation, so a decoded latitude lies in
(−101, 101) — not necessarily [−90, 90] — and a longitude in (−1001, 1001);
the sign is determined by the hemisphere letter (S negates latitude, W
negates longitude). -/
theorem igc_C3_coordinate_bounds (line : List Char) (r : FixRecord)
    (h : parseBRecord line = some r) :
    -101 < latVal r ∧ latVal r < 101 ∧ -1001 < lonVal r ∧ lonVal r < 1001 ∧
    (r.ns = 'S' → latVal r ≤ 0) ∧ (r.ns = 'N' → 0 ≤ latVal r) ∧
    (r.ew = 'W' → lonVal r ≤ 0) ∧ (r.ew = 'E' → 0 ≤ lonVal r) := by
  obtain ⟨-, -, -, hlatD, hlatM, hlonD, hlonM, hns, hew, -⟩ := parseB_fields h
  have hd1 : (r.latDeg : ℚ) ≤ 99 := by exact_mod_cast hlatD
  have hm1 : (r.latMin : ℚ) ≤ 99999 := by exact_mod_cast hlatM
  have hd2 : (r.lonDeg : ℚ) ≤ 999 := by exact_mod_cast hlonD
  have hm2 : (r.lonMin : ℚ) ≤ 99999 := by exact_mod_cast hlonM
  have hp1 : (0 : ℚ) ≤ (r.latDeg : ℚ) + (r.latMin : ℚ) / 60000 := by positivity
  have hp2 : (0 : ℚ) ≤ (r.lonDeg : ℚ) + (r.lonMin : ℚ) / 60000 := by positivity
  have hu1 : (r.latDeg : ℚ) + (r.latMin : ℚ) / 60000 < 101 := by linarith
  have hu2 : (r.lonDeg : ℚ) + (r.lonMin : ℚ) / 60000 < 1001 := by linarith
  refine ⟨?_, ?_, ?_, ?_, ?_, ?_, ?_, ?_⟩
  · unfold latVal
    split
    · linarith
    · linarith
  · unfold latVal
    split
    · linarith
    · linarith
  · unfold lonVal
    split
    · linarith
    · linarith
  · unfold lonVal
    split
    · linarith
    · linarith
  · intro hS
    unfold latVal
    rw [if_pos hS]
    linarith
  · intro hN
    unfold latVal
    rw [if_neg (by rw [hN]; decide)]
    exact hp1
  · intro hW
    unfold lonVal
    rw [if_pos hW]
    linarith
  · intro hE
    unfold lonVal
    rw [if_neg (by rw [hE]; decide)]
    exact hp2

/-- C3 is false as stated: the fix line with latitude field `95` decodes
successfully, and its decoded latitude 95 lies outside [−90, 90] (the decoder
performs no range validation). -/
theorem igc_C3_counterexample :
    readFeatureFromText "none" ("B0000009500000N00100000EA0000000000".toList) =
      some { flatCoordinates := [1, 95, 946684800], layout := "XYM", properties := [] } ∧
    ¬((95 : ℚ) ≤ 90) := by
  constructor
  · have h1 : splitLines ("B0000009500000N00100000EA0000000000".toList) =
        ["B0000009500000N00100000EA0000000000".toList] := by decide
    have h2 : parseBRecord ("B0000009500000N00100000EA0000000000".toList) =
        some { hour := 0, minute := 0, second := 0, latDeg := 95, latMin := 0, ns := 'N',
               lonDeg := 1, lonMin := 0, ew := 'E', validity := 'A',
               gpsAlt := 0, presAlt := 0 } := by decide
    rw [readFeatureFromText, h1]
    simp only [List.foldl]
    rw [processLine_fix _ _ h2]
    norm_num +decide [initState, fixBlock, wrapTime, lonVal, latVal, zVal, dateUTC, makeDay,
      daysFromYear, isLeapYear, daysBeforeMonth, Int.fdiv, Int.fmod]
  · norm_num

/-- C5 (amended): the write operations are unimplemented stubs with empty
bodies: each completes normally, produces no output (`undefined`), and never
throws — the "Not implemented" marker exists only in documentation, so the
operations silently no-op instead of signalling. -/
theorem igc_C5_write_stubs (f : Feature) (fs : List Feature) (g : List ℚ) :
    writeFeatureText f = Except.ok none ∧ writeFeaturesText fs = Except.ok none ∧
    writeGeometryText g = Except.ok none :=
  ⟨rfl, rfl, rfl⟩

/-- C5 is false as stated: no write operation signals "not implemented" — all
three return normally (no exception is raised) with no output at all. -/
theorem igc_C5_counterexample :
    raisesError (writeFeatureText
        { flatCoordinates := [], layout := "XYM", properties := [] }) = false ∧
    raisesError (writeFeaturesText []) = false ∧
    raisesError (writeGeometryText []) = false ∧
    writeFeatureText { flatCoordinates := [], layout := "XYM", properties := [] } =
      Except.ok none :=
  ⟨rfl, rfl, rfl, rfl⟩

/-- C10 (amended): a non-empty altitude-mode string other than `"none"` is
kept as configured and yields 4-component points whose `z` is `0` whenever
the mode is neither `"gps"` nor `"barometric"`; the claim fails for the empty
string, which is falsy and falls back to `"none"` (see counterexample). -/
theorem igc_C10_unrecognized_mode (s : String) (hne : s ≠ "") (hnn : s ≠ "none") :
    igcAltitudeMode (some s) = s ∧
    (∀ (r : FixRecord) (t : Int),
      fixBlock s r t = [lonVal r, latVal r, zVal s r, (t : ℚ) / 1000] ∧
      (s ≠ "gps" → s ≠ "barometric" → zVal s r = 0)) ∧
    (∀ (text : List Char) (f : Feature), readFeatureFromText s text = some f →
      ∃ ts : List Int, ts.length = ((splitLines text).filterMap parseBRecord).length ∧
        f.flatCoordinates =
          (((splitLines text).filterMap parseBRecord).zip ts).flatMap
            (fun p => [lonVal p.1, latVal p.1, zVal s p.1, (p.2 : ℚ) / 1000])) := by
  refine ⟨?_, ?_, ?_⟩
  · simp [igcAltitudeMode, hne]
  · intro r t
    constructor
    · unfold fixBlock
      rw [if_pos hnn]
      rfl
    · intro h1 h2
      unfold zVal
      rw [if_neg h1, if_neg h2]
  · intro text f hf
    obtain ⟨ts, hlen, hflat⟩ := foldl_flat s (splitLines text) initState
    refine ⟨ts, hlen, ?_⟩
    rw [(readFeature_some s text f hf).1, hflat]
    simp [initState, fixBlock, hnn]

/-- C10 is false as stated: the empty string is a string other than `"none"`,
yet it is falsy in JavaScript, so the decoder treats it as the default
`"none"` and emits 3-component points rather than 4-component ones. -/
theorem igc_C10_counterexample :
    igcAltitudeMode (some "") = "none" ∧
    readFeatureFromText (igcAltitudeMode (some ""))
        ("B1011105000000N00100000EA0012300089".toList) =
      some { flatCoordinates := [1, 50, 946721470], layout := "XYM", properties := [] } ∧
    ([(1 : ℚ), 50, 946721470].length = 3 ∧ [(1 : ℚ), 50, 946721470].length ≠ 4) := by
  exact ⟨rfl, eval_simple_none_doc, rfl, by simp⟩

/-- C1 is false as stated: this document's fixes cross two UTC midnights
without a date header; the wrap correction advances the date by at most one
day per fix (and never updates the date context), so the fourth point's time
component is strictly below the third's. -/
theorem igc_C1_counterexample :
    readFeatureFromText "none"
        (("B2300005000000N00100000EA0000000000" ++ "\n" ++
          "B0100005000000N00100000EA0000000000" ++ "\n" ++
          "B2300005000000N00100000EA0000000000" ++ "\n" ++
          "B0100005000000N00100000EA0000000000").toList) =
      some { flatCoordinates := [1, 50, 946767600, 1, 50, 946774800, 1, 50, 946854000,
                                 1, 50, 946774800], layout := "XYM", properties := [] } ∧
    ¬ List.Chain' (· ≤ ·) (timeComponents 3 [1, 50, 946767600, 1, 50, 946774800,
        1, 50, 946854000, 1, 50, 946774800]) := by
  constructor
  · have h1 : splitLines (("B2300005000000N00100000EA0000000000" ++ "\n" ++
        "B0100005000000N00100000EA0000000000" ++ "\n" ++
        "B2300005000000N00100000EA0000000000" ++ "\n" ++
        "B0100005000000N00100000EA0000000000").toList) =
        ["B2300005000000N00100000EA0000000000".toList,
         "B0100005000000N00100000EA0000000000".toList,
         "B2300005000000N00100000EA0000000000".toList,
         "B0100005000000N00100000EA0000000000".toList] := by decide
    have h2 : parseBRecord ("B2300005000000N00100000EA0000000000".toList) =
        some { hour := 23, minute := 0, second := 0, latDeg := 50, latMin := 0, ns := 'N',
               lonDeg := 1, lonMin := 0, ew := 'E', validity := 'A',
               gpsAlt := 0, presAlt := 0 } := by decide
    have h3 : parseBRecord ("B0100005000000N00100000EA0000000000".toList) =
        some { hour := 1, minute := 0, second := 0, latDeg := 50, latMin := 0, ns := 'N',
               lonDeg := 1, lonMin := 0, ew := 'E', validity := 'A',
               gpsAlt := 0, presAlt := 0 } := by decide
    rw [readFeatureFromText, h1]
    simp only [List.foldl]
    rw [processLine_fix _ _ h2, processLine_fix _ _ h3, processLine_fix _ _ h2,
      processLine_fix _ _ h3]
    norm_num +decide [initState, fixBlock, wrapTime, lonVal, latVal, zVal, dateUTC, makeDay,
      daysFromYear, isLeapYear, daysBeforeMonth, Int.fdiv, Int.fmod]
  · intro hch
    have he : timeComponents 3 ([(1 : ℚ), 50, 946767600, 1, 50, 946774800, 1, 50,
        946854000, 1, 50, 946774800]) =
        [946767600, 946774800, 946854000, 946774800] := by
      rw [show ([(1 : ℚ), 50, 946767600, 1, 50, 946774800, 1, 50, 946854000, 1, 50,
          946774800]) = [(1 : ℚ), 50, 946767600] ++ ([(1 : ℚ), 50, 946774800] ++
          ([(1 : ℚ), 50, 946854000] ++ ([(1 : ℚ), 50, 946774800] ++ []))) from rfl]
      rw [timeComponents_block 3 (by omega) [(1 : ℚ), 50, 946767600] _ rfl 946767600 rfl]
      rw [timeComponents_block 3 (by omega) [(1 : ℚ), 50, 946774800] _ rfl 946774800 rfl]
      rw [timeComponents_block 3 (by omega) [(1 : ℚ), 50, 946854000] _ rfl 946854000 rfl]
      rw [timeComponents_block 3 (by omega) [(1 : ℚ), 50, 946774800] _ rfl 946774800 rfl]
      rfl
    rw [he, List.chain'_cons, List.chain'_cons, List.chain'_cons] at hch
    have hbad := hch.2.2.1
    norm_num at hbad

/-- The one-step unfolding of `parseBRecord` on a list long enough to match. -/
theorem parseB_cons (h1 h2 n1 n2 s1 s2 a1 a2 b1 b2 b3 b4 b5 ns o1 o2 o3 q1 q2 q3 q4 q5
    ew av g1 g2 g3 g4 g5 p1 p2 p3 p4 p5 : Char) (rest : List Char) :
    parseBRecord ('B' :: h1 :: h2 :: n1 :: n2 :: s1 :: s2 :: a1 :: a2 :: b1 :: b2 :: b3 :: b4 :: b5 :: ns :: o1 :: o2 :: o3 :: q1 :: q2 :: q3 :: q4 :: q5 :: ew :: av :: g1 :: g2 :: g3 :: g4 :: g5 :: p1 :: p2 :: p3 :: p4 :: p5 :: rest) =
      (if (isDig h1 ∧ isDig h2 ∧ isDig n1 ∧ isDig n2 ∧ isDig s1 ∧ isDig s2 ∧
        isDig a1 ∧ isDig a2 ∧ isDig b1 ∧ isDig b2 ∧ isDig b3 ∧ isDig b4 ∧ isDig b5 ∧
        (ns = 'N' ∨ ns = 'S') ∧
        isDig o1 ∧ isDig o2 ∧ isDig o3 ∧ isDig q1 ∧ isDig q2 ∧ isDig q3 ∧
        isDig q4 ∧ isDig q5 ∧
        (ew = 'E' ∨ ew = 'W') ∧ (av = 'A' ∨ av = 'V') ∧
        isDig g1 ∧ isDig g2 ∧ isDig g3 ∧ isDig g4 ∧ isDig g5 ∧
        isDig p1 ∧ isDig p2 ∧ isDig p3 ∧ isDig p4 ∧ isDig p5) then
      some { hour := d2 h1 h2, minute := d2 n1 n2, second := d2 s1 s2,
             latDeg := d2 a1 a2, latMin := d5 b1 b2 b3 b4 b5, ns := ns,
             lonDeg := d3 o1 o2 o3, lonMin := d5 q1 q2 q3 q4 q5, ew := ew,
             validity := av,
             gpsAlt := d5 g1 g2 g3 g4 g5, presAlt := d5 p1 p2 p3 p4 p5 }
    else none) := rfl

theorem parseB_take35 (l : List Char) : parseBRecord (l.take 35) = parseBRecord l := by
  rcases hp : parseBRecord l with _ | r
  · rcases hq : parseBRecord (l.take 35) with _ | r1
    · rfl
    · exfalso
      unfold parseBRecord at hq
      split at hq
      · next h1 h2 n1 n2 s1 s2 a1 a2 b1 b2 b3 b4 b5 ns o1 o2 o3 q1 q2 q3 q4 q5 ew av
          g1 g2 g3 g4 g5 p1 p2 p3 p4 p5 rest heq =>
        split at hq
        · next hg =>
          have hl : l = ('B' :: h1 :: h2 :: n1 :: n2 :: s1 :: s2 :: a1 :: a2 :: b1 :: b2 ::
              b3 :: b4 :: b5 :: ns :: o1 :: o2 :: o3 :: q1 :: q2 :: q3 :: q4 :: q5 :: ew ::
              av :: g1 :: g2 :: g3 :: g4 :: g5 :: p1 :: p2 :: p3 :: p4 :: p5 :: rest) ++
              l.drop 35 := by
            rw [← heq, List.take_append_drop]
          simp only [List.cons_append] at hl
          rw [hl, parseB_cons, if_pos hg] at hp
          exact absurd hp (by simp)
        · exact absurd hq (by simp)
      · exact absurd hq (by simp)
  · unfold parseBRecord at hp
    split at hp
    · next h1 h2 n1 n2 s1 s2 a1 a2 b1 b2 b3 b4 b5 ns o1 o2 o3 q1 q2 q3 q4 q5 ew av
        g1 g2 g3 g4 g5 p1 p2 p3 p4 p5 rest =>
      rw [← hp]
      rfl
    · exact absurd hp (by simp)

/-- C6 (amended): a line produces a fix exactly when its first 35 characters
fully match the fixed-width layout: the parse depends only on those 35
characters (so over-length lines with a valid 35-character head still produce
a fix — the exact-length reading of the claim is refuted by the
counterexample), a successful parse requires length at least 35, a B-line
that fails the layout leaves the decoding state completely unchanged (silent
skip, never an error), and a successful fix appends exactly one point of the
configured width. -/
theorem igc_C6_fix_line_layout (line : List Char) :
    parseBRecord line = parseBRecord (line.take 35) ∧
    (∀ r : FixRecord, parseBRecord line = some r → 35 ≤ line.length) ∧
    (∀ (alt : String) (st : DecodeState), line.head? = some 'B' →
      parseBRecord line = none → processLine alt st line = st) ∧
    (∀ (alt : String) (st : DecodeState) (r : FixRecord), parseBRecord line = some r →
      (processLine alt st line).flatCoordinates.length =
        st.flatCoordinates.length + strideOf alt) := by
  refine ⟨(parseB_take35 line).symm, ?_, ?_, ?_⟩
  · intro r h
    exact parseB_length h
  · intro alt st hb hn
    unfold processLine
    rw [if_pos hb, hn]
  · intro alt st r h
    rw [processLine_fix alt st h]
    simp [fixBlock_length]

/-- C6 is false as stated: a 38-character B-line (35 valid characters plus
trailing extension data, hence of the wrong length for the fixed-width
layout) still parses and still contributes a 3-component point. -/
theorem igc_C6_counterexample :
    parseBRecord ("B1011105000000N00100000EA0012300089XYZ".toList) =
      some { hour := 10, minute := 11, second := 10, latDeg := 50, latMin := 0, ns := 'N',
             lonDeg := 1, lonMin := 0, ew := 'E', validity := 'A',
             gpsAlt := 123, presAlt := 89 } ∧
    ("B1011105000000N00100000EA0012300089XYZ".toList).length = 38 ∧
    (processLine "none" initState
        ("B1011105000000N00100000EA0012300089XYZ".toList)).flatCoordinates.length = 3 := by
  refine ⟨by decide, by decide, ?_⟩
  have h2 : parseBRecord ("B1011105000000N00100000EA0012300089XYZ".toList) =
      some { hour := 10, minute := 11, second := 10, latDeg := 50, latMin := 0, ns := 'N',
             lonDeg := 1, lonMin := 0, ew := 'E', validity := 'A',
             gpsAlt := 123, presAlt := 89 } := by decide
  rw [processLine_fix _ _ h2]
  simp [fixBlock_length, strideOf, initState]

theorem processLine_validityTwin (alt : String) (st : DecodeState) {l l2 : List Char}
    (hvt : validityTwin l l2) : processLine alt st l2 = processLine alt st l := by
  rcases hvt with rfl | ⟨r, c, hp, hc, rfl⟩
  · rfl
  · have hp0 := hp
    unfold parseBRecord at hp
    split at hp
    · next h1 h2 n1 n2 s1 s2 a1 a2 b1 b2 b3 b4 b5 ns o1 o2 o3 q1 q2 q3 q4 q5 ew av
        g1 g2 g3 g4 g5 p1 p2 p3 p4 p5 rest =>
      split at hp
      · next hg =>
        injection hp with hpr
        subst hpr
        obtain ⟨G1, G2, G3, G4, G5, G6, G7, G8, G9, G10, G11, G12, G13, Hns,
          W1, W2, W3, W4, W5, W6, W7, W8, Hew, Hav, E1, E2, E3, E4, E5,
          F1, F2, F3, F4, F5⟩ := hg
        have hset : (('B' :: h1 :: h2 :: n1 :: n2 :: s1 :: s2 :: a1 :: a2 :: b1 :: b2 ::
              b3 :: b4 :: b5 :: ns :: o1 :: o2 :: o3 :: q1 :: q2 :: q3 :: q4 :: q5 :: ew ::
              av :: g1 :: g2 :: g3 :: g4 :: g5 :: p1 :: p2 :: p3 :: p4 :: p5 :: rest).set 24 c) =
            ('B' :: h1 :: h2 :: n1 :: n2 :: s1 :: s2 :: a1 :: a2 :: b1 :: b2 ::
              b3 :: b4 :: b5 :: ns :: o1 :: o2 :: o3 :: q1 :: q2 :: q3 :: q4 :: q5 :: ew ::
              c :: g1 :: g2 :: g3 :: g4 :: g5 :: p1 :: p2 :: p3 :: p4 :: p5 :: rest) := rfl
        rw [hset]
        have hpm : parseBRecord ('B' :: h1 :: h2 :: n1 :: n2 :: s1 :: s2 :: a1 :: a2 :: b1 :: b2 ::
              b3 :: b4 :: b5 :: ns :: o1 :: o2 :: o3 :: q1 :: q2 :: q3 :: q4 :: q5 :: ew ::
              c :: g1 :: g2 :: g3 :: g4 :: g5 :: p1 :: p2 :: p3 :: p4 :: p5 :: rest) =
            some { hour := d2 h1 h2, minute := d2 n1 n2, second := d2 s1 s2,
                   latDeg := d2 a1 a2, latMin := d5 b1 b2 b3 b4 b5, ns := ns,
                   lonDeg := d3 o1 o2 o3, lonMin := d5 q1 q2 q3 q4 q5, ew := ew,
                   validity := c,
                   gpsAlt := d5 g1 g2 g3 g4 g5, presAlt := d5 p1 p2 p3 p4 p5 } := by
          rw [parseB_cons, if_pos (⟨G1, G2, G3, G4, G5, G6, G7, G8, G9, G10, G11, G12,
            G13, Hns, W1, W2, W3, W4, W5, W6, W7, W8, Hew, hc, E1, E2, E3, E4, E5,
            F1, F2, F3, F4, F5⟩ :
              (isDig h1 ∧ isDig h2 ∧ isDig n1 ∧ isDig n2 ∧ isDig s1 ∧ isDig s2 ∧
              isDig a1 ∧ isDig a2 ∧ isDig b1 ∧ isDig b2 ∧ isDig b3 ∧ isDig b4 ∧
              isDig b5 ∧ (ns = 'N' ∨ ns = 'S') ∧
              isDig o1 ∧ isDig o2 ∧ isDig o3 ∧ isDig q1 ∧ isDig q2 ∧ isDig q3 ∧
              isDig q4 ∧ isDig q5 ∧
              (ew = 'E' ∨ ew = 'W') ∧ (c = 'A' ∨ c = 'V') ∧
              isDig g1 ∧ isDig g2 ∧ isDig g3 ∧ isDig g4 ∧ isDig g5 ∧
              isDig p1 ∧ isDig p2 ∧ isDig p3 ∧ isDig p4 ∧ isDig p5))]
        rw [processLine_fix alt st hpm, processLine_fix alt st hp0]
        rfl
      · exact absurd hp (by simp)
    · exact absurd hp (by simp)

theorem foldl_validityTwin (alt : String) {ls1 ls2 : List (List Char)}
    (h : List.Forall₂ validityTwin ls1 ls2) :
    ∀ st : DecodeState, ls2.foldl (processLine alt) st = ls1.foldl (processLine alt) st := by
  induction h with
  | nil => intro st; rfl
  | cons hrel _ ih =>
    intro st
    rw [List.foldl_cons, List.foldl_cons, processLine_validityTwin alt st hrel, ih]

/-- C9: the decode is independent of the fix-validity letters: for two
documents whose line lists are identical except that some decodable fix lines
carry validity `A` in one and `V` in the other (index 24), both the single
feature and the feature list decode identically — void fixes are included,
with every component equal. -/
theorem igc_C9_validity_independent (alt : String) (t1 t2 : List Char)
    (h : List.Forall₂ validityTwin (splitLines t1) (splitLines t2)) :
    readFeatureFromText alt t2 = readFeatureFromText alt t1 ∧
    readFeaturesFromText alt t2 = readFeaturesFromText alt t1 := by
  have hfold := foldl_validityTwin alt h initState
  constructor
  · simp only [readFeatureFromText]
    rw [hfold]
  · simp only [readFeaturesFromText, readFeatureFromText]
    rw [hfold]

theorem igc_C1_witness :
    List.Chain' (· ≤ ·) (timeComponents (strideOf "none")
      ([1, 50, 946771198, 1, 50, 946771202] : List ℚ)) :=
  igc_C1_track_times_monotone "none"
    (("B2359585000000N00100000EA0000000000" ++ "\n" ++
      "B0000025000000N00100000EA0000000000").toList)
    { flatCoordinates := [1, 50, 946771198, 1, 50, 946771202],
      layout := "XYM", properties := [] }
    (by decide) (by decide)
    ⟨1,
      by
        have ht : ((((splitLines (("B2359585000000N00100000EA0000000000" ++ "\n" ++
            "B0000025000000N00100000EA0000000000").toList)).filterMap
              parseBRecord).map todMs).take 1) = [86398000] := by decide
        rw [ht]
        exact List.chain'_singleton _,
      by
        have ht : ((((splitLines (("B2359585000000N00100000EA0000000000" ++ "\n" ++
            "B0000025000000N00100000EA0000000000").toList)).filterMap
              parseBRecord).map todMs).drop 1) = [2000] := by decide
        rw [ht]
        exact List.chain'_singleton _⟩
    eval_rollover_doc

theorem igc_C2_witness :
    (processLine "none" initState
        ("B1011105000000N00100000EA0012300089".toList)).lastDateTime =
      (if dateUTC 2000 0 1 10 11 10 < -1 then dateUTC 2000 0 (1 + 1) 10 11 10
       else dateUTC 2000 0 1 10 11 10) ∧
    (processLine "none" initState
        ("B1011105000000N00100000EA0012300089".toList)).flatCoordinates.getLast? =
      some (((processLine "none" initState
        ("B1011105000000N00100000EA0012300089".toList)).lastDateTime : ℚ) / 1000) :=
  igc_C2_timestamp_rule.1 "none" initState ("B1011105000000N00100000EA0012300089".toList)
    { hour := 10, minute := 11, second := 10, latDeg := 50, latMin := 0, ns := 'N',
      lonDeg := 1, lonMin := 0, ew := 'E', validity := 'A', gpsAlt := 123, presAlt := 89 }
    (by decide)

theorem igc_C3_witness : -101 < latVal rec95 ∧ latVal rec95 < 101 := by
  have h := igc_C3_coordinate_bounds ("B0000009500000N00100000EA0000000000".toList)
    rec95 (by decide)
  exact ⟨h.1, h.2.1⟩

theorem igc_C4_witness :
    ∃ ts : List Int, ts.length = 1 ∧
      ([(1 : ℚ), 50, 123, 1598177470] : List ℚ) =
        (((splitLines (("HFDTE230820" ++ "\n" ++
            "B1011105000000N00100000EA0012300089").toList)).filterMap
              parseBRecord).zip ts).flatMap
          (fun p => fixBlock "gps" p.1 p.2) := by
  obtain ⟨ts, h1, h2, -⟩ := igc_C4_point_components "gps" _ _ eval_spec_gps_doc
  refine ⟨ts, ?_, h2⟩
  rw [h1]
  decide

theorem igc_C6_witness :
    parseBRecord ("B10".toList) = parseBRecord (("B10".toList).take 35) ∧
    processLine "none" initState ("B10".toList) = initState := by
  have h := igc_C6_fix_line_layout ("B10".toList)
  exact ⟨h.1, h.2.2.1 "none" initState (by decide) (by decide)⟩

theorem igc_C7_witness :
    readFeaturesFromText "none" ("HFPLTPILOTINCHARGE:John Doe".toList) = [] ∧
    readFeatureFromText "none" ("HFPLTPILOTINCHARGE:John Doe".toList) = none :=
  igc_C7_no_fix_empty "none" ("HFPLTPILOTINCHARGE:John Doe".toList) (by decide)

theorem igc_C8_witness :
    processLine "none" initState ("HFDTE230820".toList) =
      { initState with day := (23 : Int), month := (8 : Int) - 1,
                       year := 2000 + (20 : Int) } :=
  igc_C8_date_header "none" initState ("HFDTE230820".toList) 23 8 20 (by decide)

theorem igc_C9_witness :
    readFeatureFromText "gps" ("B1011105000000N00100000EV0012300089".toList) =
      readFeatureFromText "gps" ("B1011105000000N00100000EA0012300089".toList) ∧
    readFeaturesFromText "gps" ("B1011105000000N00100000EV0012300089".toList) =
      readFeaturesFromText "gps" ("B1011105000000N00100000EA0012300089".toList) := by
  refine igc_C9_validity_independent "gps"
    ("B1011105000000N00100000EA0012300089".toList)
    ("B1011105000000N00100000EV0012300089".toList) ?_
  have e1 : splitLines ("B1011105000000N00100000EA0012300089".toList) =
      ["B1011105000000N00100000EA0012300089".toList] := by decide
  have e2 : splitLines ("B1011105000000N00100000EV0012300089".toList) =
      ["B1011105000000N00100000EV0012300089".toList] := by decide
  rw [e1, e2]
  refine List.Forall₂.cons (Or.inr ?_) List.Forall₂.nil
  exact ⟨{ hour := 10, minute := 11, second := 10, latDeg := 50, latMin := 0, ns := 'N',
           lonDeg := 1, lonMin := 0, ew := 'E', validity := 'A',
           gpsAlt := 123, presAlt := 89 }, 'V', by decide, Or.inr rfl, by decide⟩

theorem igc_C10_witness :
    igcAltitudeMode (some "foo") = "foo" ∧
    fixBlock "foo" rec123 946721470000 =
      [lonVal rec123, latVal rec123, zVal "foo" rec123,
       ((946721470000 : Int) : ℚ) / 1000] ∧
    zVal "foo" rec123 = 0 := by
  obtain ⟨h1, h2, -⟩ := igc_C10_unrecognized_mode "foo" (by decide) (by decide)
  obtain ⟨h3, h4⟩ := h2 rec123 946721470000
  exact ⟨h1, h3, h4 (by decide) (by decide)⟩
